import Mathlib

/-!
Verification development for the `ditag` DICOM archive/query tool.

The definitions below are a shallow embedding of the Python sources:
`ditag/database.py` (the SQLite catalog), `ditag/querier.py` (the query
engine and its REGEXP helper), `ditag/indexer.py` (the PACS indexer and
its resume logic), `ditag/downloader.py` (the C-MOVE retrieval path),
`ditag/sender.py` (the C-STORE transmission path) and `ditag/cli.py`
(the `project index` entry point).  SQL NULL is modelled as `none`,
SQLite TEXT columns as `Option String`, Python exceptions as `Except`.
-/

namespace Ditag

/-- A Python/SQLite runtime error surfaced to the caller.  `typeError`
models the `TypeError` raised when a C function receives an argument of
the wrong type (e.g. `re.search(None)` or `pydicom.dcmread()` with the
required source argument missing). -/
inductive PyError
  | typeError
deriving DecidableEq

/-- One row of the `series` table created by `database.create_tables`:
all metadata columns are TEXT and nullable. -/
structure SeriesRow where
  StudyInstanceUID : Option String
  SeriesInstanceUID : Option String
  StudyDescription : Option String
  SeriesDescription : Option String
  PatientName : Option String
  PatientID : Option String
  StudyDate : Option String
  archive_path : Option String
deriving DecidableEq

/-- A `series` row together with its `id` (INTEGER PRIMARY KEY AUTOINCREMENT). -/
structure SeriesRec where
  id : Nat
  row : SeriesRow
deriving DecidableEq

/-- One row of the `instances` table: `series_id` is the foreign key into
`series`; `SOPInstanceUID` is UNIQUE.  Both call sites supply a non-null
`SOPInstanceUID` (it is accessed as `metadata['SOPInstanceUID']`). -/
structure InstanceRec where
  id : Nat
  series_id : Nat
  SOPInstanceUID : String
  file_path : Option String
deriving DecidableEq

/-- The catalog database state: both tables in rowid order plus the next
AUTOINCREMENT value for each. -/
structure Catalog where
  series : List SeriesRec
  instances : List InstanceRec
  nextSeriesId : Nat
  nextInstanceId : Nat
deriving DecidableEq

def emptyCatalog : Catalog := ⟨[], [], 0, 0⟩

/-- The series-level part of a metadata dict passed to the insert
functions.  `SeriesInstanceUID` is accessed as `metadata['SeriesInstanceUID']`
(a required key, always a UID string at both call sites); the remaining
keys are read with `metadata.get(k, '')` and hold the possibly-`None`
values the callers stored, so they are `Option String` here. -/
structure SeriesMeta where
  StudyInstanceUID : Option String
  SeriesInstanceUID : String
  StudyDescription : Option String
  SeriesDescription : Option String
  PatientName : Option String
  PatientID : Option String
  StudyDate : Option String
  archive_path : Option String
deriving DecidableEq

/-- The full metadata dict built by `indexer.process_file`: series-level
attributes plus the instance-level `SOPInstanceUID` and `file_path`. -/
structure DicomMeta where
  series : SeriesMeta
  SOPInstanceUID : String
  file_path : Option String
deriving DecidableEq

/-- The `series` row written by the INSERT in both insert functions. -/
def seriesRowOfMeta (m : SeriesMeta) : SeriesRow :=
  { StudyInstanceUID := m.StudyInstanceUID
    SeriesInstanceUID := some m.SeriesInstanceUID
    StudyDescription := m.StudyDescription
    SeriesDescription := m.SeriesDescription
    PatientName := m.PatientName
    PatientID := m.PatientID
    StudyDate := m.StudyDate
    archive_path := m.archive_path }

/-- `SELECT id FROM series WHERE SeriesInstanceUID = ?` followed by
`fetchone()`: the id of the first row (in rowid order) whose
`SeriesInstanceUID` equals the given value, if any. -/
def findSeries (l : List SeriesRec) (uid : String) : Option Nat :=
  match l with
  | [] => none
  | r :: rs => if r.row.SeriesInstanceUID == some uid then some r.id else findSeries rs uid

/-- Appending the new `series` row produced by the INSERT branch. -/
def insertSeriesRow (cat : Catalog) (m : SeriesMeta) : Catalog :=
  { cat with
    series := cat.series ++ [⟨cat.nextSeriesId, seriesRowOfMeta m⟩]
    nextSeriesId := cat.nextSeriesId + 1 }

/-- Whether an instance row with this `SOPInstanceUID` already exists
(the UNIQUE constraint consulted by `INSERT OR IGNORE`). -/
def hasSOP (insts : List InstanceRec) (sop : String) : Bool :=
  insts.any fun i => i.SOPInstanceUID == sop

/-- `INSERT OR IGNORE INTO instances (series_id, SOPInstanceUID, file_path)`:
a no-op when the `SOPInstanceUID` UNIQUE constraint would be violated. -/
def insertInstance (cat : Catalog) (sid : Nat) (sop : String) (fp : Option String) : Catalog :=
  if hasSOP cat.instances sop then cat
  else
    { cat with
      instances := cat.instances ++ [⟨cat.nextInstanceId, sid, sop, fp⟩]
      nextInstanceId := cat.nextInstanceId + 1 }

/-- `database.insert_dicom_metadata`: look the series up by
`SeriesInstanceUID`; reuse the existing row's id if found, otherwise
insert a new series row (whose id is `lastrowid`); then
`INSERT OR IGNORE` the instance. -/
def insert_dicom_metadata (cat : Catalog) (m : DicomMeta) : Catalog :=
  if (findSeries cat.series m.series.SeriesInstanceUID).isSome then
    insertInstance cat ((findSeries cat.series m.series.SeriesInstanceUID).getD cat.nextSeriesId)
      m.SOPInstanceUID m.file_path
  else
    insertInstance (insertSeriesRow cat m.series) cat.nextSeriesId m.SOPInstanceUID m.file_path

/-- `database.insert_series_metadata`: look the series up by
`SeriesInstanceUID`; insert a new series row only when absent. -/
def insert_series_metadata (cat : Catalog) (m : SeriesMeta) : Catalog :=
  if (findSeries cat.series m.SeriesInstanceUID).isSome then cat
  else insertSeriesRow cat m

/-- Indexing a set of files in order (each file's metadata goes through
`insert_dicom_metadata`), as `index_archive` does via `process_file`. -/
def index_files (cat : Catalog) (ms : List DicomMeta) : Catalog :=
  ms.foldl insert_dicom_metadata cat

theorem findSeries_append (l₁ l₂ : List SeriesRec) (uid : String) :
    findSeries (l₁ ++ l₂) uid =
      match findSeries l₁ uid with
      | some i => some i
      | none => findSeries l₂ uid := by
  induction l₁ with
  | nil => simp [findSeries]
  | cons r rs ih =>
    by_cases h : r.row.SeriesInstanceUID == some uid
    · simp [findSeries, h]
    · simp [findSeries, h, ih]

theorem findSeries_isSome_append (l₁ l₂ : List SeriesRec) (uid : String)
    (h : (findSeries l₁ uid).isSome = true) :
    findSeries (l₁ ++ l₂) uid = findSeries l₁ uid := by
  rw [findSeries_append]
  cases hf : findSeries l₁ uid with
  | none => rw [hf] at h; simp at h
  | some i => rfl

/-- A file's metadata is already fully represented in the catalog: its
series UID has a `series` row and its SOP UID has an `instances` row. -/
def processed (cat : Catalog) (m : DicomMeta) : Prop :=
  (findSeries cat.series m.series.SeriesInstanceUID).isSome = true ∧
    hasSOP cat.instances m.SOPInstanceUID = true

theorem insertInstance_series (cat : Catalog) (sid : Nat) (sop : String) (fp : Option String) :
    (insertInstance cat sid sop fp).series = cat.series := by
  unfold insertInstance; split <;> rfl

theorem hasSOP_insertInstance_mono (cat : Catalog) (sid : Nat) (sop s : String)
    (fp : Option String) (h : hasSOP cat.instances s = true) :
    hasSOP (insertInstance cat sid sop fp).instances s = true := by
  unfold insertInstance
  split
  · exact h
  · simpa [hasSOP, List.any_append] using Or.inl (by simpa [hasSOP] using h)

theorem hasSOP_insertInstance_self (cat : Catalog) (sid : Nat) (sop : String)
    (fp : Option String) :
    hasSOP (insertInstance cat sid sop fp).instances sop = true := by
  unfold insertInstance
  split
  · assumption
  · simp [hasSOP, List.any_append]

theorem insert_dicom_metadata_series_of_found (cat : Catalog) (m : DicomMeta)
    (h : (findSeries cat.series m.series.SeriesInstanceUID).isSome = true) :
    (insert_dicom_metadata cat m).series = cat.series := by
  simp only [insert_dicom_metadata, h, if_true]
  exact insertInstance_series ..

theorem insert_dicom_metadata_instances_of_sop (cat : Catalog) (m : DicomMeta)
    (h : hasSOP cat.instances m.SOPInstanceUID = true) :
    (insert_dicom_metadata cat m).instances = cat.instances := by
  unfold insert_dicom_metadata
  split
  · simp [insertInstance, h]
  · simp [insertInstance, insertSeriesRow, h]

theorem insert_dicom_metadata_of_processed (cat : Catalog) (m : DicomMeta)
    (h : processed cat m) : insert_dicom_metadata cat m = cat := by
  obtain ⟨h₁, h₂⟩ := h
  simp only [insert_dicom_metadata, h₁, if_true, insertInstance, h₂]

theorem processed_mono (cat : Catalog) (m m' : DicomMeta) (h : processed cat m) :
    processed (insert_dicom_metadata cat m') m := by
  obtain ⟨h₁, h₂⟩ := h
  constructor
  · unfold insert_dicom_metadata
    split
    · rw [insertInstance_series]; exact h₁
    · rw [insertInstance_series]
      simp only [insertSeriesRow]
      rw [findSeries_isSome_append _ _ _ h₁]
      exact h₁
  · unfold insert_dicom_metadata
    split
    · exact hasSOP_insertInstance_mono _ _ _ _ _ h₂
    · exact hasSOP_insertInstance_mono _ _ _ _ _ (by simpa [insertSeriesRow] using h₂)

theorem processed_insert_self (cat : Catalog) (m : DicomMeta) :
    processed (insert_dicom_metadata cat m) m := by
  constructor
  · unfold insert_dicom_metadata
    split
    · rw [insertInstance_series]; assumption
    · rw [insertInstance_series]
      simp only [insertSeriesRow]
      rw [findSeries_append]
      split
      · rfl
      · simp [findSeries, seriesRowOfMeta]
  · unfold insert_dicom_metadata
    split
    · exact hasSOP_insertInstance_self ..
    · exact hasSOP_insertInstance_self ..

theorem processed_index_files_mono (cat : Catalog) (ms : List DicomMeta) (m : DicomMeta)
    (h : processed cat m) : processed (index_files cat ms) m := by
  induction ms generalizing cat with
  | nil => exact h
  | cons b ms ih => exact ih _ (processed_mono _ _ _ h)

theorem processed_index_files (cat : Catalog) (ms : List DicomMeta) :
    ∀ m ∈ ms, processed (index_files cat ms) m := by
  induction ms generalizing cat with
  | nil => intro m hm; cases hm
  | cons a ms ih =>
    intro m hm
    rcases List.mem_cons.mp hm with rfl | hm
    · show processed (index_files (insert_dicom_metadata cat m) ms) m
      exact processed_index_files_mono _ _ _ (processed_insert_self cat m)
    · exact ih (insert_dicom_metadata cat a) m hm

theorem index_files_of_processed (cat : Catalog) (ms : List DicomMeta)
    (h : ∀ m ∈ ms, processed cat m) : index_files cat ms = cat := by
  induction ms with
  | nil => rfl
  | cons a ms ih =>
    show index_files (insert_dicom_metadata cat a) ms = cat
    rw [insert_dicom_metadata_of_processed _ _ (h a (List.mem_cons_self ..))]
    exact ih fun m hm => h m (List.mem_cons_of_mem _ hm)

/-! ## Query engine (`ditag/querier.py`) -/

/-- The columns of the `series` table that the query's `--targets` option
can name (interpolated as `s.{target}` into the WHERE clause). -/
inductive Col
  | StudyInstanceUID
  | SeriesInstanceUID
  | StudyDescription
  | SeriesDescription
  | PatientName
  | PatientID
  | StudyDate
  | archive_path
deriving DecidableEq

def getCol (r : SeriesRow) : Col → Option String
  | .StudyInstanceUID => r.StudyInstanceUID
  | .SeriesInstanceUID => r.SeriesInstanceUID
  | .StudyDescription => r.StudyDescription
  | .SeriesDescription => r.SeriesDescription
  | .PatientName => r.PatientName
  | .PatientID => r.PatientID
  | .StudyDate => r.StudyDate
  | .archive_path => r.archive_path

/-- Whether `needle` occurs as a contiguous run inside `hay`. -/
def containsSeq (needle : List Char) : List Char → Bool
  | [] => needle.isPrefixOf []
  | c :: cs => needle.isPrefixOf (c :: cs) || containsSeq needle cs

/-- Modelled from the semantics of Python's `re` module on the pattern
language this repository actually feeds it: an optional leading
case-insensitivity flag `(?i)` followed by metacharacter-free literal
text.  `re.compile(expr).search(item)` then reports whether the literal
occurs anywhere in the subject (search, not full match), case-folded
when the flag is present. -/
def pyReSearch (expr item : String) : Bool :=
  if "(?i)".toList.isPrefixOf expr.toList then
    containsSeq ((expr.toList.drop 4).map Char.toLower) (item.toList.map Char.toLower)
  else
    containsSeq expr.toList item.toList

/-- `querier.regexp`, the REGEXP helper registered with
`conn.create_function`: applies a regular-expression search to the
column value.  SQLite hands a NULL column through as Python `None`, on
which `re.search` raises `TypeError` (there is no None check). -/
def regexp (expr : String) (item : Option String) : Except PyError Bool :=
  match item with
  | none => .error .typeError
  | some s => .ok (pyReSearch expr s)

/-- Python truthiness of a possibly-absent string option (`if date:` is
false both for `None` and for the empty string). -/
def truthyStr : Option String → Bool
  | none => false
  | some s => !(s == "")

/-- SQLite BINARY collation on TEXT values: byte-wise (for the ASCII
date strings at issue, character-wise) lexicographic order, shorter
strings sorting first on a tie. -/
def lexLe (a b : List Char) : Bool :=
  match a, b with
  | [], _ => true
  | _ :: _, [] => false
  | c :: cs, d :: ds => if c < d then true else if c == d then lexLe cs ds else false

theorem lexLe_nil (bs : List Char) : lexLe [] bs = true := by cases bs <;> rfl

theorem lexLe_cons_nil (c : Char) (cs : List Char) : lexLe (c :: cs) [] = false := rfl

theorem lexLe_cons (c d : Char) (cs ds : List Char) :
    lexLe (c :: cs) (d :: ds) =
      if c < d then true else if c == d then lexLe cs ds else false := rfl

/-- The executable collation agrees with the mathematical lexicographic
(strict) order on character lists, weakened to allow equality. -/
theorem lexLe_iff (as bs : List Char) :
    lexLe as bs = true ↔ (List.Lex (· < ·) as bs ∨ as = bs) := by
  induction as generalizing bs with
  | nil =>
    cases bs with
    | nil => simp [lexLe_nil]
    | cons d ds =>
      constructor
      · intro _; exact Or.inl List.Lex.nil
      · intro _; exact lexLe_nil _
  | cons c cs ih =>
    cases bs with
    | nil =>
      rw [lexLe_cons_nil]
      constructor
      · intro h; cases h
      · rintro (h | h)
        · cases h
        · exact (List.cons_ne_nil c cs h).elim
    | cons d ds =>
      rw [lexLe_cons]
      by_cases hlt : c < d
      · rw [if_pos hlt]
        constructor
        · intro _; exact Or.inl (List.Lex.rel hlt)
        · intro _; rfl
      · rw [if_neg hlt]
        by_cases heq : c = d
        · subst heq
          rw [if_pos (by simp : (c == c) = true), ih]
          constructor
          · rintro (h | rfl)
            · exact Or.inl (List.Lex.cons h)
            · exact Or.inr rfl
          · rintro (h | h)
            · cases h with
              | rel h' => exact absurd h' hlt
              | cons h' => exact Or.inl h'
            · injection h with h1 h2; exact Or.inr h2
        · rw [if_neg (by simpa using heq)]
          constructor
          · intro h; cases h
          · rintro (h | h)
            · cases h with
              | rel h' => exact absurd h' hlt
              | cons h' => exact absurd rfl heq
            · injection h with h1 h2; exact absurd h1 heq

/-- SQLite `s.StudyDate = ?`: NULL compares as not-true. -/
def sqlEq (v : Option String) (x : String) : Bool := v == some x

/-- SQLite `s.StudyDate >= ?` under BINARY collation: lexicographic
comparison; NULL compares as not-true. -/
def sqlGe (v : Option String) (x : String) : Bool :=
  match v with
  | none => false
  | some s => lexLe x.toList s.toList

/-- SQLite `s.StudyDate <= ?`: lexicographic; NULL compares as not-true. -/
def sqlLe (v : Option String) (x : String) : Bool :=
  match v with
  | none => false
  | some s => lexLe s.toList x.toList

/-- The OR-group `(s.t1 REGEXP ? OR s.t2 REGEXP ? OR ...)` built by
`query_db` when both a pattern and target columns are supplied: SQLite
evaluates the disjuncts left to right, short-circuiting on the first
true one; evaluating `REGEXP` on a NULL column raises. -/
def orTargets (r : SeriesRow) (p : String) : List Col → Except PyError Bool
  | [] => .ok false
  | c :: cs => do
    let b ← regexp p (getCol r c)
    if b then .ok true else orTargets r p cs

/-- Evaluation of the WHERE clause built by `query_db` on one row: the
conditions are appended in source order (exact date, start date, end
date, then the pattern OR-group) and joined with AND, which SQLite
evaluates left to right with short-circuiting.  A date option
participates only when truthy (`if date:` etc.); the pattern group only
when both the pattern and the target list are truthy. -/
def rowPass (r : SeriesRow) (sdate edate date : Option String)
    (targets : List Col) (pattern : Option String) : Except PyError Bool :=
  if truthyStr date && !sqlEq r.StudyDate (date.getD "") then .ok false
  else if truthyStr sdate && !sqlGe r.StudyDate (sdate.getD "") then .ok false
  else if truthyStr edate && !sqlLe r.StudyDate (edate.getD "") then .ok false
  else if truthyStr pattern && !targets.isEmpty then
    orTargets r (pattern.getD "") targets
  else .ok true

/-- The six columns in the SELECT list of `query_db`. -/
structure ResultRow where
  StudyDescription : Option String
  SeriesDescription : Option String
  PatientName : Option String
  PatientID : Option String
  StudyDate : Option String
  SeriesInstanceUID : Option String
deriving DecidableEq

def projectRow (r : SeriesRow) : ResultRow :=
  ⟨r.StudyDescription, r.SeriesDescription, r.PatientName, r.PatientID,
    r.StudyDate, r.SeriesInstanceUID⟩

/-- Row-by-row evaluation of the WHERE clause over the table: the first
row on which the REGEXP helper raises aborts the whole query. -/
def filterRows (p : SeriesRow → Except PyError Bool) :
    List SeriesRow → Except PyError (List SeriesRow)
  | [] => .ok []
  | r :: rs => do
    let b ← p r
    let rest ← filterRows p rs
    .ok (if b then r :: rest else rest)

/-- SELECT DISTINCT: collapse duplicate output rows (first occurrence kept). -/
def dedupRows (seen : List ResultRow) : List ResultRow → List ResultRow
  | [] => []
  | x :: xs => if x ∈ seen then dedupRows seen xs else x :: dedupRows (x :: seen) xs

/-- `querier.query_db` restricted to its result set: evaluate the WHERE
clause on every `series` row, project the six selected columns and
collapse duplicates. -/
def query_db (rows : List SeriesRow) (sdate edate date : Option String)
    (targets : List Col) (pattern : Option String) : Except PyError (List ResultRow) := do
  let kept ← filterRows (fun r => rowPass r sdate edate date targets pattern) rows
  .ok (dedupRows [] (kept.map projectRow))

/-! ## Remote indexer (`ditag/indexer.py`) and CLI entry (`ditag/cli.py`) -/

/-- What one iteration of a response loop does with a DIMSE status value. -/
inductive StatusAct
  | pendingCont
  | quiet
  | failLog
deriving DecidableEq

/-- The study-level C-FIND response loop of `index_pacs`: statuses
0xFF00/0xFF01 are pending (the identifier is consumed, the loop
continues), any other non-zero status is logged as a failure, and 0 (the
final success response) falls through silently. -/
def study_find_handle (s : Nat) : StatusAct :=
  if s = 0xFF00 ∨ s = 0xFF01 then .pendingCont
  else if s ≠ 0 then .failLog
  else .quiet

/-- The series-level C-FIND response loop of `index_pacs`: same
classification as the study-level loop. -/
def series_find_handle (s : Nat) : StatusAct :=
  if s = 0xFF00 ∨ s = 0xFF01 then .pendingCont
  else if s ≠ 0 then .failLog
  else .quiet

/-- The C-MOVE response loop of `downloader.download_series`: a status
is reported as a failure unless it is 0xFF00 (pending) or 0x0000
(success); every other value, 0xFF01 included, is logged as a failure. -/
def move_handle (s : Nat) : StatusAct :=
  if s = 0xFF00 ∨ s = 0x0000 then .quiet else .failLog

/-- Stated from the spec's words: the three-way status classification —
success, pending (continuation expected), and every other value a
failure. -/
inductive StatusClass
  | success
  | pending
  | failure
deriving DecidableEq

/-- Stated from the spec's words: 0 is success, the two pending codes
are pending, everything else is a failure. -/
def spec_status_class (s : Nat) : StatusClass :=
  if s = 0 then .success
  else if s = 0xFF00 ∨ s = 0xFF01 then .pending
  else .failure

/-- Python truthiness of an optional integer CLI value (`0` is falsy). -/
def truthyInt : Option Int → Bool
  | none => false
  | some n => !(n == 0)

/-- `index_pacs` resume step 1: `--start-at-line` keeps the list from
the given 1-based line on when `1 <= v <= len`, otherwise warns and
keeps the whole list. -/
def apply_start_at_line (lst : List String) : Option Int → List String
  | none => lst
  | some v => if 1 ≤ v ∧ v ≤ (lst.length : Int) then lst.drop (v - 1).toNat else lst

/-- Modelled after Python `list.index`: the index of the first
occurrence, or `none` where Python raises `ValueError`. -/
def py_list_index (a : String) : List String → Option Nat
  | [] => none
  | x :: xs => if x == a then some 0 else (py_list_index a xs).map (· + 1)

/-- `index_pacs` resume step 2: `--start-at-accession` keeps the list
from the first entry equal to the given accession number on, otherwise
(`ValueError`) warns and keeps the whole list. -/
def apply_start_at_accession (lst : List String) : Option String → List String
  | none => lst
  | some a =>
    match py_list_index a lst with
    | some i => lst.drop i
    | none => lst

/-- The accession list actually traversed by `index_pacs` after both
resume steps (applied in source order: line first, then accession). -/
def resume_targets (lst : List String) (line : Option Int) (acc : Option String) : List String :=
  apply_start_at_accession (apply_start_at_line lst line) acc

/-- The error `cli.project_index` raises before doing anything else. -/
inductive CliError
  | usageError
deriving DecidableEq

/-- `cli.project_index` up to the start of the PACS traversal: the
mutual-exclusion guard `if start_at_line and start_at_accession` (Python
truthiness) raises `click.UsageError` first; otherwise the project is
created and `index_pacs` truncates the target list with the resume
options.  The returned list is the accession list the network traversal
would then process. -/
def project_index (line : Option Int) (acc : Option String) (targets : List String) :
    Except CliError (List String) :=
  if truthyInt line && truthyStr acc then .error .usageError
  else .ok (resume_targets targets line acc)

/-! ## Retrieval path (`ditag/downloader.py`) -/

/-- A C-MOVE identifier dataset as built in `download_series`. -/
structure MoveDataset where
  QueryRetrieveLevel : Option String := none
  StudyInstanceUID : Option String := none
  SeriesInstanceUID : Option String := none
deriving DecidableEq

/-- Modelled from pydicom: `dcmread`'s first parameter (the dataset
source) is required, and `download_series` calls `dcmread()` with no
arguments at all, which raises `TypeError` before any dataset exists. -/
def dcmread_no_args : Except PyError MoveDataset := .error .typeError

/-- The (StudyInstanceUID, SeriesInstanceUID) pair of a candidate series. -/
structure SeriesInfo where
  StudyInstanceUID : String
  SeriesInstanceUID : String
deriving DecidableEq

/-- The observable steps of one retrieve task. -/
inductive MoveAct
  | echoInfo (s : String)
  | sendCMove (study series dest : String)
  | statusLogged (a : StatusAct)
  | release
deriving DecidableEq

/-- `downloader.download_series` after the association request: when the
association is established the body runs `ds = dcmread()`, assigns the
series keys onto `ds`, sends the C-MOVE directed at `my_aet`, consumes
the responses (classifying each status via the loop modelled by
`move_handle`) and releases; any uncaught exception propagates out as
`.error`.  `responses` is the status stream the remote would answer. -/
def download_series (established : Bool) (info : SeriesInfo) (my_aet : String)
    (responses : List Nat) : Except PyError (List MoveAct) :=
  if established then do
    let ds0 ← dcmread_no_args
    let ds : MoveDataset :=
      { ds0 with
        QueryRetrieveLevel := some "SERIES"
        StudyInstanceUID := some info.StudyInstanceUID
        SeriesInstanceUID := some info.SeriesInstanceUID }
    .ok ([MoveAct.sendCMove (ds.StudyInstanceUID.getD "") (ds.SeriesInstanceUID.getD "") my_aet]
      ++ responses.map (fun s => MoveAct.statusLogged (move_handle s))
      ++ [MoveAct.release])
  else .ok [MoveAct.echoInfo "Failed to associate with PACS for C-MOVE."]

/-- The header-name lookup `header.index('SeriesInstanceUID')` plus the
per-row extraction `row[uid_col]` of `downloader.download_project`:
`none` where Python would raise (`ValueError` for a missing header
column, `IndexError` for a short row, `StopIteration` for an empty
file). -/
def csv_uids_by_name (csv : List (List String)) : Option (List String) := do
  let header ← csv.head?
  let i ← py_list_index "SeriesInstanceUID" header
  csv.tail.mapM fun row => row.get? i

/-- The selection step of `download_project` with an `--input` CSV: keep
exactly the catalog series whose `SeriesInstanceUID` is among the values
read from the CSV's `SeriesInstanceUID` column. -/
def download_selection (csv : List (List String)) (all_series : List SeriesInfo) :
    Option (List SeriesInfo) := do
  let uids ← csv_uids_by_name csv
  pure (all_series.filter fun s => uids.contains s.SeriesInstanceUID)

/-! ## Transmission path (`ditag/sender.py`) -/

/-- The CSV-reading loop of `sender.send_dicoms`: the first row is
skipped only when it contains the literal `SeriesInstanceUID` somewhere,
otherwise its 6th column is taken as data; every later non-empty row
contributes its 6th column (`row[5]` — the source comments "Assumes
SeriesInstanceUID is the 6th column").  `none` where `row[5]` would
raise `IndexError`. -/
def sender_series_uids (csv : List (List String)) : Option (List String) :=
  match csv with
  | [] => some []
  | first :: rows => do
    let rest ← (rows.filter fun row => !row.isEmpty).mapM fun row => row.get? 5
    if first.contains "SeriesInstanceUID" then pure rest
    else do
      let u ← first.get? 5
      pure (u :: rest)

/-- The outcome of `send_dicoms` up to the association decision.
`ae.associate` is reached only in the `associated` case: the empty-list
early return and the empty-capability abort both `return` first. -/
inductive SendResult
  | noSeries
  | noCapability
  | associated (sop_classes : List String)
deriving DecidableEq

/-- `sender.send_dicoms` up to the association decision: an empty series
list returns "No series to send."; otherwise one file per series is
sampled for its SOP Class UID (`sample` returns `none` when the catalog
has no file for the series or the file cannot be read — both are
non-fatal, caught per item), and if no SOP class at all was collected
the function reports "No valid SOP classes found ... Aborting." and
returns before `ae.associate` is called. -/
def send_dicoms (series_uids : List String) (sample : String → Option String) : SendResult :=
  if series_uids.isEmpty then .noSeries
  else
    let sop_classes := series_uids.filterMap sample
    if sop_classes.isEmpty then .noCapability
    else .associated sop_classes

/-! ## Claim theorems -/

/-- C1: catalog insertion is first-writer-wins and idempotent: when the
`SeriesInstanceUID` already exists, both upserts leave every stored
series row unchanged; an instance insert whose `SOPInstanceUID` already
exists is a silent no-op; and indexing the same files a second time in
append mode leaves the Series and Instance rows (hence their counts)
unchanged. -/
theorem insert_first_writer_wins_and_idempotent :
    (∀ (cat : Catalog) (m : DicomMeta),
        (findSeries cat.series m.series.SeriesInstanceUID).isSome = true →
        (insert_dicom_metadata cat m).series = cat.series) ∧
    (∀ (cat : Catalog) (m : DicomMeta),
        hasSOP cat.instances m.SOPInstanceUID = true →
        (insert_dicom_metadata cat m).instances = cat.instances) ∧
    (∀ (cat : Catalog) (m : SeriesMeta),
        (findSeries cat.series m.SeriesInstanceUID).isSome = true →
        insert_series_metadata cat m = cat) ∧
    (∀ (cat : Catalog) (ms : List DicomMeta),
        index_files (index_files cat ms) ms = index_files cat ms) := by
  refine ⟨insert_dicom_metadata_series_of_found, insert_dicom_metadata_instances_of_sop, ?_, ?_⟩
  · intro cat m h
    simp [insert_series_metadata, h]
  · intro cat ms
    exact index_files_of_processed _ _ (processed_index_files cat ms)

def metaW : DicomMeta :=
  ⟨⟨some "1.1", "1.2", some "MR BRAIN", some "T1", some "DOE^JANE", some "P1",
    some "20230101", some "/arch"⟩, "1.2.0", some "/arch/f1.dcm"⟩

def catW : Catalog := index_files emptyCatalog [metaW]

theorem insert_first_writer_wins_and_idempotent_witness :
    (insert_dicom_metadata catW metaW).series = catW.series ∧
    (insert_dicom_metadata catW metaW).instances = catW.instances ∧
    insert_series_metadata catW metaW.series = catW ∧
    index_files (index_files catW [metaW]) [metaW] = index_files catW [metaW] :=
  ⟨insert_first_writer_wins_and_idempotent.1 catW metaW (by decide),
    insert_first_writer_wins_and_idempotent.2.1 catW metaW (by decide),
    insert_first_writer_wins_and_idempotent.2.2.1 catW metaW.series (by decide),
    insert_first_writer_wins_and_idempotent.2.2.2 catW [metaW]⟩

/-- C2 counterexample: the claim says both pending codes are never
reported as failures in any of the three response loops, but the C-MOVE
retrieve-request loop logs the second pending code 0xFF01 as a failure. -/
theorem move_loop_fails_on_second_pending :
    spec_status_class 0xFF01 = StatusClass.pending ∧
      move_handle 0xFF01 = StatusAct.failLog := by
  exact ⟨by decide, by decide⟩

/-- C2 (amended): the study-level and series-level C-FIND loops realise
the spec's three-way classification exactly (both pending codes
continue, success is silent, everything else is logged as a failure),
while the C-MOVE response loop treats only 0xFF00 as pending, so it
logs a status as a failure iff the status is a spec failure or the
second pending code 0xFF01. -/
theorem status_classification_per_loop :
    (∀ s : Nat, study_find_handle s = StatusAct.failLog ↔
        spec_status_class s = StatusClass.failure) ∧
    (∀ s : Nat, study_find_handle s = StatusAct.pendingCont ↔
        spec_status_class s = StatusClass.pending) ∧
    (∀ s : Nat, series_find_handle s = StatusAct.failLog ↔
        spec_status_class s = StatusClass.failure) ∧
    (∀ s : Nat, series_find_handle s = StatusAct.pendingCont ↔
        spec_status_class s = StatusClass.pending) ∧
    (∀ s : Nat, move_handle s = StatusAct.failLog ↔
        (spec_status_class s = StatusClass.failure ∨ s = 0xFF01)) := by
  refine ⟨?_, ?_, ?_, ?_, ?_⟩ <;> intro s <;>
    rcases Decidable.em (s = 0) with rfl | h0 <;>
      try rcases Decidable.em (s = 0xFF00) with rfl | h1 <;>
        try rcases Decidable.em (s = 0xFF01) with rfl | h2
  all_goals first
    | decide
    | simp [study_find_handle, series_find_handle, move_handle, spec_status_class,
        h0, h1, h2]

theorem status_classification_per_loop_witness :
    (study_find_handle 0xC000 = StatusAct.failLog ↔
        spec_status_class 0xC000 = StatusClass.failure) ∧
    (move_handle 0xFF01 = StatusAct.failLog ↔
        (spec_status_class 0xFF01 = StatusClass.failure ∨ 0xFF01 = 0xFF01)) :=
  ⟨status_classification_per_loop.1 0xC000,
    status_classification_per_loop.2.2.2.2 0xFF01⟩

/-- C3 (code-bug evaluation): once the outbound association is
established, `download_series` always raises `TypeError`: the identifier
is built with `ds = dcmread()` — pydicom's file reader called with its
required source argument missing — instead of `Dataset()`, so the
C-MOVE request is never constructed, never sent, and the association is
never released. -/
theorem download_series_always_raises :
    ∀ (info : SeriesInfo) (my_aet : String) (responses : List Nat),
      download_series true info my_aet responses = .error .typeError := by
  intro info my_aet responses
  rfl

/-- C5 counterexample: both resume parameters are set (line 0, an
accession number), yet `project_index` raises no usage error — it
proceeds and applies the accession resume, because the guard tests
Python truthiness and `0` is falsy. -/
theorem resume_guard_counterexample :
    project_index (some 0) (some "ACC2") ["ACC1", "ACC2", "ACC3"] =
      .ok ["ACC2", "ACC3"] := by rfl

/-- C5 (amended): when both resume parameters are set to Python-truthy
values (a non-zero line and a non-empty accession number), the operation
fails fast with a usage error — raised before the project is created,
before any catalog write and before any network activity — and never
applies either resume parameter; with a falsy value (`0` or the empty
string) in either option, it proceeds. -/
theorem resume_guard_mutual_exclusion :
    ∀ (v : Int) (a : String) (targets : List String),
      v ≠ 0 → a ≠ "" →
      project_index (some v) (some a) targets = .error .usageError := by
  intro v a targets hv ha
  have h1 : truthyInt (some v) = true := by simp [truthyInt, hv]
  have h2 : truthyStr (some a) = true := by simp [truthyStr, ha]
  simp [project_index, h1, h2]

theorem resume_guard_mutual_exclusion_witness :
    project_index (some 3) (some "ACC7") ["ACC1"] = .error .usageError :=
  resume_guard_mutual_exclusion 3 "ACC7" ["ACC1"] (by decide) (by decide)

/-- C9: when no SOP class capability can be determined from the selected
series (no sampled file yields one), `send_dicoms` reports the
user-visible "No valid SOP classes found" error and returns; the
`associated` outcome — the only branch in which `ae.associate` is
reached — is never produced, and the sampling loop catches per-file
read errors, so nothing is raised. -/
theorem send_aborts_without_capability :
    ∀ (series_uids : List String) (sample : String → Option String),
      series_uids ≠ [] → (∀ u ∈ series_uids, sample u = none) →
      send_dicoms series_uids sample = SendResult.noCapability := by
  intro uids sample hne hnone
  have hempty : uids.filterMap sample = [] := by
    simp [List.filterMap_eq_nil_iff]
    exact hnone
  have hne' : uids.isEmpty = false := by
    cases uids with
    | nil => exact absurd rfl hne
    | cons a as => rfl
  simp [send_dicoms, hne', hempty]

theorem send_aborts_without_capability_witness :
    send_dicoms ["1.2.3"] (fun _ => none) = SendResult.noCapability :=
  send_aborts_without_capability ["1.2.3"] (fun _ => none) (by decide) (by simp)

theorem py_list_index_cons (a x : String) (xs : List String) :
    py_list_index a (x :: xs) =
      if x == a then some 0 else (py_list_index a xs).map (· + 1) := rfl

theorem py_list_index_none_iff (a : String) (lst : List String) :
    py_list_index a lst = none ↔ a ∉ lst := by
  induction lst with
  | nil => simp [py_list_index]
  | cons x xs ih =>
    by_cases h : x == a
    · have hxa : x = a := by simpa using h
      subst hxa
      simp [py_list_index, h]
    · have hxa : ¬x = a := by simpa using h
      simp [py_list_index, h, Option.map_eq_none', ih, List.mem_cons, Ne.symm hxa]

theorem py_list_index_first (a : String) (lst : List String) (i : Nat)
    (h : py_list_index a lst = some i) :
    i < lst.length ∧ lst.get? i = some a ∧ ∀ j, j < i → lst.get? j ≠ some a := by
  induction lst generalizing i with
  | nil => simp [py_list_index] at h
  | cons x xs ih =>
    by_cases hx : x == a
    · have hxa : x = a := by simpa using hx
      subst hxa
      simp only [py_list_index, hx, if_true, Option.some.injEq] at h
      subst h
      exact ⟨Nat.succ_pos _, rfl, fun j hj => absurd hj (Nat.not_lt_zero j)⟩
    · rw [py_list_index_cons, if_neg (by simpa using hx)] at h
      obtain ⟨i', hi', hplus⟩ := Option.map_eq_some'.mp h
      subst hplus
      obtain ⟨hlen, hget, hfirst⟩ := ih i' hi'
      refine ⟨Nat.succ_lt_succ hlen, by simpa using hget, ?_⟩
      intro j hj
      cases j with
      | zero =>
        intro hcon
        exact hx (by simp_all)
      | succ j' =>
        have := hfirst j' (Nat.lt_of_succ_lt_succ hj)
        simpa using this

/-- C6: with a single resume parameter, resume-at-line with
`1 <= v <= length` processes exactly the entries from 1-based line `v`
onward (entry `k` of the remainder is entry `v-1+k` of the full list),
an out-of-range `v` falls back to the full list; resume-at-accession
with a value present in the list processes exactly the entries from the
first matching entry onward, and an absent value falls back to the full
list. -/
theorem resume_truncation :
    (∀ (lst : List String) (v : Int), 1 ≤ v → v ≤ (lst.length : Int) →
        apply_start_at_line lst (some v) = lst.drop (v - 1).toNat) ∧
    (∀ (lst : List String) (v : Int) (k : Nat), 1 ≤ v → v ≤ (lst.length : Int) →
        (apply_start_at_line lst (some v)).get? k = lst.get? ((v - 1).toNat + k)) ∧
    (∀ (lst : List String) (v : Int), v < 1 ∨ (lst.length : Int) < v →
        apply_start_at_line lst (some v) = lst) ∧
    (∀ (lst : List String) (a : String), a ∈ lst →
        ∃ i, i < lst.length ∧ lst.get? i = some a ∧
          (∀ j, j < i → lst.get? j ≠ some a) ∧
          apply_start_at_accession lst (some a) = lst.drop i) ∧
    (∀ (lst : List String) (a : String), a ∉ lst →
        apply_start_at_accession lst (some a) = lst) := by
  refine ⟨?_, ?_, ?_, ?_, ?_⟩
  · intro lst v h1 h2
    simp [apply_start_at_line, h1, h2]
  · intro lst v k h1 h2
    simp only [apply_start_at_line, h1, h2, and_self, if_true]
    exact List.get?_drop ..
  · intro lst v h
    have : ¬(1 ≤ v ∧ v ≤ (lst.length : Int)) := by omega
    simp [apply_start_at_line, this]
  · intro lst a ha
    have hne : ¬py_list_index a lst = none := by
      rw [py_list_index_none_iff]
      exact fun hcon => hcon ha
    cases hidx : py_list_index a lst with
    | none => exact absurd hidx hne
    | some i =>
      obtain ⟨hlen, hget, hfirst⟩ := py_list_index_first a lst i hidx
      exact ⟨i, hlen, hget, hfirst, by simp [apply_start_at_accession, hidx]⟩
  · intro lst a ha
    have h : py_list_index a lst = none := (py_list_index_none_iff a lst).mpr ha
    simp [apply_start_at_accession, h]

theorem resume_truncation_witness :
    apply_start_at_line ["A", "B", "C"] (some 2) = ["B", "C"] ∧
    (apply_start_at_line ["A", "B", "C"] (some 2)).get? 0 =
      (["A", "B", "C"] : List String).get? 1 ∧
    apply_start_at_line ["A", "B", "C"] (some 5) = ["A", "B", "C"] ∧
    (∃ i, i < (["A", "B", "C"] : List String).length ∧
      (["A", "B", "C"] : List String).get? i = some "B" ∧
      (∀ j, j < i → (["A", "B", "C"] : List String).get? j ≠ some "B") ∧
      apply_start_at_accession ["A", "B", "C"] (some "B") =
        (["A", "B", "C"] : List String).drop i) ∧
    apply_start_at_accession ["A", "B", "C"] (some "Z") = ["A", "B", "C"] :=
  ⟨resume_truncation.1 ["A", "B", "C"] 2 (by decide) (by decide),
    resume_truncation.2.1 ["A", "B", "C"] 2 0 (by decide) (by decide),
    resume_truncation.2.2.1 ["A", "B", "C"] 5 (by decide),
    resume_truncation.2.2.2.1 ["A", "B", "C"] "B" (by decide),
    resume_truncation.2.2.2.2 ["A", "B", "C"] "Z" (by decide)⟩

def csvA : List (List String) :=
  [["SeriesInstanceUID", "c1", "c2", "c3", "c4", "c5"],
    ["1.2.3", "x", "x", "x", "x", "x"]]

def csvB : List (List String) :=
  [["c1", "c2", "c3", "c4", "c5", "SeriesInstanceUID"],
    ["x", "x", "x", "x", "x", "1.2.3"]]

def allSeriesW : List SeriesInfo := [⟨"1.1", "1.2.3"⟩, ⟨"1.1", "x"⟩]

/-- C4 counterexample: `csvA` and `csvB` carry the same single
`SeriesInstanceUID` value `1.2.3` under the named column, at positions
0 and 5 respectively.  The retrieval path selects the same series from
both, but the transmission path reads fixed column 5 and extracts `x`
from `csvA` and `1.2.3` from `csvB` — different series. -/
theorem csv_column_position_counterexample :
    csv_uids_by_name csvA = some ["1.2.3"] ∧
    csv_uids_by_name csvB = some ["1.2.3"] ∧
    download_selection csvA allSeriesW = download_selection csvB allSeriesW ∧
    sender_series_uids csvA = some ["x"] ∧
    sender_series_uids csvB = some ["1.2.3"] := by
  refine ⟨by rfl, by rfl, by rfl, by rfl, by rfl⟩

/-- C4 (amended): only the retrieval path resolves the
`SeriesInstanceUID` column by header name — its selection depends only
on the values under that header, wherever the column sits; the
transmission path takes fixed column index 5 (the source comments
"Assumes SeriesInstanceUID is the 6th column"), so its selection
depends only on the 6th column of the non-empty data rows, regardless
of where the named column is. -/
theorem csv_selection_by_name_vs_fixed_offset :
    (∀ (c1 c2 : List (List String)) (allS : List SeriesInfo),
        csv_uids_by_name c1 = csv_uids_by_name c2 →
        download_selection c1 allS = download_selection c2 allS) ∧
    (∀ (h1 h2 : List String) (rows1 rows2 : List (List String)),
        h1.contains "SeriesInstanceUID" = true →
        h2.contains "SeriesInstanceUID" = true →
        ((rows1.filter fun row => !row.isEmpty).mapM fun row => row.get? 5) =
          ((rows2.filter fun row => !row.isEmpty).mapM fun row => row.get? 5) →
        sender_series_uids (h1 :: rows1) = sender_series_uids (h2 :: rows2)) := by
  constructor
  · intro c1 c2 allS h
    simp [download_selection, h]
  · intro h1 h2 rows1 rows2 hh1 hh2 he
    show (do
      let rest ← (rows1.filter fun row => !row.isEmpty).mapM fun row => row.get? 5
      if h1.contains "SeriesInstanceUID" then pure rest
      else do
        let u ← h1.get? 5
        pure (u :: rest) : Option (List String)) = (do
      let rest ← (rows2.filter fun row => !row.isEmpty).mapM fun row => row.get? 5
      if h2.contains "SeriesInstanceUID" then pure rest
      else do
        let u ← h2.get? 5
        pure (u :: rest))
    have hm1 : "SeriesInstanceUID" ∈ h1 := by simpa using hh1
    have hm2 : "SeriesInstanceUID" ∈ h2 := by simpa using hh2
    rw [he]
    simp [hm1, hm2]

theorem csv_selection_by_name_vs_fixed_offset_witness :
    download_selection csvA allSeriesW = download_selection csvB allSeriesW ∧
    sender_series_uids (["SeriesInstanceUID"] :: [["a", "b", "c", "d", "e", "u"]]) =
      sender_series_uids (["x", "SeriesInstanceUID"] :: [["a", "b", "c", "d", "e", "u"]]) :=
  ⟨csv_selection_by_name_vs_fixed_offset.1 csvA csvB allSeriesW (by rfl),
    csv_selection_by_name_vs_fixed_offset.2 ["SeriesInstanceUID"] ["x", "SeriesInstanceUID"]
      [["a", "b", "c", "d", "e", "u"]] [["a", "b", "c", "d", "e", "u"]]
      (by rfl) (by rfl) (by rfl)⟩

/-- The conjunction of the (active) date conditions of the WHERE clause
on one row, as a boolean. -/
def datePassB (d sdate edate date : Option String) : Bool :=
  (!(truthyStr date) || sqlEq d (date.getD "")) &&
    ((!(truthyStr sdate) || sqlGe d (sdate.getD "")) &&
      (!(truthyStr edate) || sqlLe d (edate.getD "")))

theorem rowPass_no_pattern (r : SeriesRow) (sdate edate date : Option String)
    (targets : List Col) :
    rowPass r sdate edate date targets none =
      .ok (datePassB r.StudyDate sdate edate date) := by
  unfold rowPass datePassB
  cases h1 : truthyStr date <;> cases h2 : sqlEq r.StudyDate (date.getD "") <;>
    cases h3 : truthyStr sdate <;> cases h4 : sqlGe r.StudyDate (sdate.getD "") <;>
      cases h5 : truthyStr edate <;> cases h6 : sqlLe r.StudyDate (edate.getD "") <;>
        simp [truthyStr]

theorem rowPass_with_pattern (r : SeriesRow) (sdate edate date : Option String)
    (targets : List Col) (p : String)
    (hp : truthyStr (some p) = true) (ht : targets ≠ []) :
    rowPass r sdate edate date targets (some p) =
      if datePassB r.StudyDate sdate edate date then orTargets r p targets
      else .ok false := by
  have htE : targets.isEmpty = false := by
    cases targets with
    | nil => exact absurd rfl ht
    | cons a l => rfl
  unfold rowPass datePassB
  cases h1 : truthyStr date <;> cases h2 : sqlEq r.StudyDate (date.getD "") <;>
    cases h3 : truthyStr sdate <;> cases h4 : sqlGe r.StudyDate (sdate.getD "") <;>
      cases h5 : truthyStr edate <;> cases h6 : sqlLe r.StudyDate (edate.getD "") <;>
        simp [hp, htE]

/-- Stated from the spec's words: inclusive lexicographic comparison of
date strings (strict lexicographic order or equality). -/
def specStrLe (a b : String) : Prop :=
  List.Lex (· < ·) a.toList b.toList ∨ a = b

theorem string_toList_inj {a b : String} (h : a.toList = b.toList) : a = b := by
  cases a; cases b; exact congrArg String.mk h

theorem lexLe_strings_iff (a b : String) :
    lexLe a.toList b.toList = true ↔ specStrLe a b := by
  rw [lexLe_iff]
  constructor
  · rintro (h | h)
    · exact Or.inl h
    · exact Or.inr (string_toList_inj h)
  · rintro (h | rfl)
    · exact Or.inl h
    · exact Or.inr rfl

/-- Stated from the claim: a row passes the date filters iff, for each
filter actually given, the row's StudyDate satisfies the corresponding
(inclusive) comparison. -/
def specDateFilter (d : Option String) (sdate edate date : Option String) : Prop :=
  (∀ x, date = some x → d = some x) ∧
  (∀ x, sdate = some x → ∃ s, d = some s ∧ specStrLe x s) ∧
  (∀ x, edate = some x → ∃ s, d = some s ∧ specStrLe s x)

theorem sqlEq_true_iff (d : Option String) (x : String) :
    sqlEq d x = true ↔ d = some x := by
  cases d <;> simp [sqlEq]

theorem lexLe_data_iff (a b : String) : lexLe a.data b.data = true ↔ specStrLe a b :=
  lexLe_strings_iff a b

theorem sqlGe_true_iff (d : Option String) (x : String) :
    sqlGe d x = true ↔ ∃ s, d = some s ∧ specStrLe x s := by
  cases d with
  | none => simp [sqlGe]
  | some s => simp [sqlGe, lexLe_strings_iff, lexLe_data_iff]

theorem sqlLe_true_iff (d : Option String) (x : String) :
    sqlLe d x = true ↔ ∃ s, d = some s ∧ specStrLe s x := by
  cases d with
  | none => simp [sqlLe]
  | some s => simp [sqlLe, lexLe_strings_iff, lexLe_data_iff]

theorem date_cond_iff (d date : Option String) (hd : date ≠ some "") :
    (!(truthyStr date) || sqlEq d (date.getD "")) = true ↔
      ∀ x, date = some x → d = some x := by
  cases date with
  | none => simp [truthyStr]
  | some x =>
    have hx : ¬x = "" := fun hcon => hd (by rw [hcon])
    have ht : truthyStr (some x) = true := by simp [truthyStr, hx]
    simp [ht, sqlEq_true_iff]

theorem ge_cond_iff (d sdate : Option String) (hs : sdate ≠ some "") :
    (!(truthyStr sdate) || sqlGe d (sdate.getD "")) = true ↔
      ∀ x, sdate = some x → ∃ s, d = some s ∧ specStrLe x s := by
  cases sdate with
  | none => simp [truthyStr]
  | some x =>
    have hx : ¬x = "" := fun hcon => hs (by rw [hcon])
    have ht : truthyStr (some x) = true := by simp [truthyStr, hx]
    simp [ht, sqlGe_true_iff]

theorem le_cond_iff (d edate : Option String) (he : edate ≠ some "") :
    (!(truthyStr edate) || sqlLe d (edate.getD "")) = true ↔
      ∀ x, edate = some x → ∃ s, d = some s ∧ specStrLe s x := by
  cases edate with
  | none => simp [truthyStr]
  | some x =>
    have hx : ¬x = "" := fun hcon => he (by rw [hcon])
    have ht : truthyStr (some x) = true := by simp [truthyStr, hx]
    simp [ht, sqlLe_true_iff]

theorem datePassB_iff (d sdate edate date : Option String)
    (hs : sdate ≠ some "") (he : edate ≠ some "") (hd : date ≠ some "") :
    datePassB d sdate edate date = true ↔ specDateFilter d sdate edate date := by
  unfold datePassB specDateFilter
  rw [Bool.and_eq_true, Bool.and_eq_true]
  exact and_congr (date_cond_iff d date hd)
    (and_congr (ge_cond_iff d sdate hs) (le_cond_iff d edate he))

def dateRowA : SeriesRow :=
  ⟨some "1.1", some "1.4.1", some "SD", some "SER", some "PN", some "P1",
    some "20230101", some "/a"⟩

def dateRowB : SeriesRow :=
  ⟨some "1.1", some "1.4.2", some "SD", some "SER", some "PN", some "P1",
    some "20230115", some "/a"⟩

def dateRowC : SeriesRow :=
  ⟨some "1.1", some "1.4.3", some "SD", some "SER", some "PN", some "P1",
    some "20230201", some "/a"⟩

/-- C7: the date filters are inclusive and compare StudyDate
lexicographically as strings: without a pattern filter, a row passes iff
StudyDate equals the exact date when one is given, is lexicographically
at or after the start date when one is given, and at or before the end
date when one is given; on the catalog with StudyDate values 20230101,
20230115, 20230201, the query sdate=20230110, edate=20230131 returns
exactly the 20230115 series. -/
theorem date_filters_inclusive_lexicographic :
    (∀ (r : SeriesRow) (sdate edate date : Option String) (targets : List Col),
        sdate ≠ some "" → edate ≠ some "" → date ≠ some "" →
        (rowPass r sdate edate date targets none = .ok true ↔
          specDateFilter r.StudyDate sdate edate date)) ∧
    query_db [dateRowA, dateRowB, dateRowC] (some "20230110") (some "20230131")
        none [] none = .ok [projectRow dateRowB] := by
  constructor
  · intro r sdate edate date targets hs he hd
    rw [rowPass_no_pattern]
    rw [show (Except.ok (datePassB r.StudyDate sdate edate date) =
        (.ok true : Except PyError Bool)) ↔
        datePassB r.StudyDate sdate edate date = true by simp]
    exact datePassB_iff r.StudyDate sdate edate date hs he hd
  · rfl

theorem date_filters_inclusive_lexicographic_witness :
    rowPass dateRowB (some "20230110") (some "20230131") none [] none = .ok true ↔
      specDateFilter dateRowB.StudyDate (some "20230110") (some "20230131") none :=
  date_filters_inclusive_lexicographic.1 dateRowB (some "20230110") (some "20230131")
    none [] (by decide) (by decide) (by decide)

theorem orTargets_cons (r : SeriesRow) (p : String) (c : Col) (cs : List Col) :
    orTargets r p (c :: cs) =
      (do
        let b ← regexp p (getCol r c)
        if b then .ok true else orTargets r p cs) := rfl

theorem orTargets_all_some (r : SeriesRow) (p : String) (cs : List Col)
    (h : ∀ c ∈ cs, (getCol r c).isSome = true) :
    orTargets r p cs = .ok (cs.any fun c => pyReSearch p ((getCol r c).getD "")) := by
  induction cs with
  | nil => rfl
  | cons c cs ih =>
    obtain ⟨s, hs⟩ := Option.isSome_iff_exists.mp (h c (List.mem_cons_self ..))
    rw [orTargets_cons, hs]
    cases hb : pyReSearch p s with
    | true =>
      simp [regexp, hb, hs]
      rfl
    | false =>
      simp [regexp, hb, hs]
      exact ih fun c' hc' => h c' (List.mem_cons_of_mem _ hc')

def chestRow : SeriesRow :=
  ⟨some "1.1", some "1.5.1", some "CT CHEST", some "CHEST PA", some "DOE^JOHN",
    some "P1", some "20230115", some "/a"⟩

def abdomenRow : SeriesRow :=
  ⟨some "1.1", some "1.5.2", some "CT ABD", some "Abdomen", some "DOE^JOHN",
    some "P1", some "20230116", some "/a"⟩

/-- C8: with target columns and a pattern both supplied (and the
targeted columns non-NULL so that the REGEXP helper is defined), a row
is included iff the pattern search-matches at least one of the named
columns — logical OR across the target columns — ANDed with the date
filters; concretely, the search `(?i)chest` matches SeriesDescription
"CHEST PA", does not match "Abdomen", and the query returns exactly the
matching series. -/
theorem pattern_filter_or_across_columns :
    (∀ (r : SeriesRow) (sdate edate date : Option String) (targets : List Col) (p : String),
        p ≠ "" → targets ≠ [] → (∀ c ∈ targets, (getCol r c).isSome = true) →
        (rowPass r sdate edate date targets (some p) = .ok true ↔
          (datePassB r.StudyDate sdate edate date = true ∧
            ∃ c ∈ targets, ∃ s, getCol r c = some s ∧ pyReSearch p s = true))) ∧
    pyReSearch "(?i)chest" "CHEST PA" = true ∧
    pyReSearch "(?i)chest" "Abdomen" = false ∧
    query_db [chestRow, abdomenRow] none none none [Col.SeriesDescription]
        (some "(?i)chest") = .ok [projectRow chestRow] := by
  refine ⟨?_, by decide, by decide, by rfl⟩
  intro r sdate edate date targets p hp ht hsome
  have hp' : truthyStr (some p) = true := by simp [truthyStr, hp]
  rw [rowPass_with_pattern r sdate edate date targets p hp' ht]
  cases hdp : datePassB r.StudyDate sdate edate date with
  | false =>
    simp only [if_neg (by simp : ¬(false = true))]
    constructor
    · intro hcon; exact absurd hcon (by simp)
    · rintro ⟨hcon, -⟩; exact absurd hcon (by simp)
  | true =>
    rw [if_pos rfl, orTargets_all_some r p targets hsome]
    constructor
    · intro hok
      have hany : (targets.any fun c => pyReSearch p ((getCol r c).getD "")) = true := by
        simpa using hok
      obtain ⟨c, hc, hf⟩ := List.any_eq_true.mp hany
      obtain ⟨s, hs⟩ := Option.isSome_iff_exists.mp (hsome c hc)
      refine ⟨rfl, c, hc, s, hs, ?_⟩
      rw [hs] at hf
      simpa using hf
    · rintro ⟨-, c, hc, s, hs, hsearch⟩
      have hany : (targets.any fun c => pyReSearch p ((getCol r c).getD "")) = true :=
        List.any_eq_true.mpr ⟨c, hc, by simp [hs, hsearch]⟩
      rw [hany]

theorem pattern_filter_or_across_columns_witness :
    rowPass chestRow none none none [Col.SeriesDescription] (some "(?i)chest") = .ok true ↔
      (datePassB chestRow.StudyDate none none none = true ∧
        ∃ c ∈ [Col.SeriesDescription], ∃ s, getCol chestRow c = some s ∧
          pyReSearch "(?i)chest" s = true) :=
  pattern_filter_or_across_columns.1 chestRow none none none [Col.SeriesDescription]
    "(?i)chest" (by decide) (by decide) (by decide)

/-- The metadata dict built by the series-level loop of
`indexer.index_pacs` for one series result: `StudyInstanceUID`,
`SeriesInstanceUID` and the `pacs://<aetitle>` origin are always
present, `PatientName` is always `str(...)`, while `StudyDescription`,
`SeriesDescription`, `PatientID` and `StudyDate` come from
`identifier.get(...)` and are `None` when the remote result omits the
attribute. -/
def pacs_series_metadata (study_uid series_uid : String)
    (studyDesc seriesDesc patID studyDate : Option String)
    (patName aet : String) : SeriesMeta :=
  { StudyInstanceUID := some study_uid
    SeriesInstanceUID := series_uid
    StudyDescription := studyDesc
    SeriesDescription := seriesDesc
    PatientName := some patName
    PatientID := patID
    StudyDate := studyDate
    archive_path := some ("pacs://" ++ aet) }

/-- A catalog reachable through the remote-indexing path: one series
whose optional attributes were all omitted by the remote result, stored
as NULL by `insert_series_metadata`. -/
def nullSeriesCat : Catalog :=
  insert_series_metadata emptyCatalog
    (pacs_series_metadata "1.2" "1.3" none none none none "" "REMOTE")

theorem filterRows_cons (p : SeriesRow → Except PyError Bool) (r : SeriesRow)
    (rs : List SeriesRow) :
    filterRows p (r :: rs) =
      (do
        let b ← p r
        let rest ← filterRows p rs
        .ok (if b then r :: rest else rest)) := rfl

/-- C10: pattern queries are only total when the targeted columns are
non-NULL.  On the reachable catalog `nullSeriesCat` — whose single
series row, produced by the remote-indexing path, holds NULL in every
`identifier.get`-sourced column — every query that combines a (truthy)
pattern with target columns drawn from those nullable columns raises
`TypeError` from the REGEXP helper instead of skipping or excluding the
row. -/
theorem pattern_query_raises_on_null :
    ∀ (p : String), p ≠ "" →
      ∀ (cs : List Col), cs ≠ [] →
        (∀ c ∈ cs, c = Col.StudyDescription ∨ c = Col.SeriesDescription ∨
          c = Col.PatientID ∨ c = Col.StudyDate) →
        query_db (nullSeriesCat.series.map fun rec => rec.row) none none none cs (some p) =
          .error .typeError := by
  intro p hp cs hcs hmem
  cases cs with
  | nil => exact absurd rfl hcs
  | cons c cs' =>
    have hrow : (nullSeriesCat.series.map fun rec => rec.row) =
        [seriesRowOfMeta (pacs_series_metadata "1.2" "1.3" none none none none "" "REMOTE")] :=
      rfl
    set r0 : SeriesRow :=
      seriesRowOfMeta (pacs_series_metadata "1.2" "1.3" none none none none "" "REMOTE") with hr0
    have hget : getCol r0 c = none := by
      rcases hmem c (List.mem_cons_self ..) with h | h | h | h <;> subst h <;> rfl
    have hp' : truthyStr (some p) = true := by simp [truthyStr, hp]
    have hrp : rowPass r0 none none none (c :: cs') (some p) = .error .typeError := by
      rw [rowPass_with_pattern r0 none none none (c :: cs') p hp' (List.cons_ne_nil c cs')]
      rw [if_pos (by rfl : datePassB r0.StudyDate none none none = true)]
      rw [orTargets_cons, hget]
      rfl
    rw [hrow]
    show (do
      let kept ← filterRows
        (fun r => rowPass r none none none (c :: cs') (some p)) [r0]
      .ok (dedupRows [] (kept.map projectRow)) : Except PyError (List ResultRow)) =
        .error .typeError
    rw [filterRows_cons, hrp]
    rfl

theorem pattern_query_raises_on_null_witness :
    query_db (nullSeriesCat.series.map fun rec => rec.row) none none none
      [Col.SeriesDescription] (some "(?i)chest") = .error .typeError :=
  pattern_query_raises_on_null "(?i)chest" (by decide) [Col.SeriesDescription]
    (by decide) (by decide)
